import Mathlib

/-!
# Verification of the HealthCarer slot-booking core

Shallow embedding of the `HealthCarerDynamoDB` class (file
`dynamodb-client.ts`, given as `src/unnamed/part_001`) together with the
validation layers of the two transport adapters (the MCP server
`src/src/server.ts` and the express REST server in `src/unnamed/part_001`).

The DynamoDB table `healthcarer-appointments` is modelled as a list of
`TimeSlot` records keyed by the pair `(carer_id, date_time_slot)`; each
DynamoDB command (`PutCommand` with `attribute_not_exists`, `UpdateCommand`
with a `ConditionExpression`, `QueryCommand`, `ScanCommand`) is an atomic
operation on that list, which is exactly the atomicity DynamoDB guarantees
for single-item conditional writes.  A possible connectivity / throttling /
unexpected failure of a single store call is modelled by an explicit
`fault : Option String` input to the operation: `some e` means the store
call failed with error `e` before applying any write.  Concurrent
executions of single-item atomic writes are modelled by their serialization:
every interleaving of the atomic conditional writes is some sequential order
of them, so properties quantified over all request orders cover all
interleavings.
-/

set_option autoImplicit false
set_option maxRecDepth 10000

namespace HealthCarer

/-- The `availability` attribute: the TypeScript union type `'Free' | 'Booked'`
(from `types.ts`). -/
inductive Availability where
  | Free
  | Booked
deriving DecidableEq, Repr

/-- The `TimeSlot` interface of `types.ts`: one item of the
`healthcarer-appointments` table.  `booking_person_name` is the optional
attribute (`booking_person_name?: string`). -/
structure TimeSlot where
  carer_id : String
  date_time_slot : String
  availability : Availability
  booking_person_name : Option String
  date : String
  time_slot : String
deriving DecidableEq, Repr

/-- The `BookingRequest` interface of `types.ts`. -/
structure BookingRequest where
  carer_id : String
  date : String
  time_slot : String
  person_name : String
deriving DecidableEq, Repr

/-- The `{ success: boolean; message: string }` result shape returned by
`bookAppointment` and `cancelAppointment`. -/
structure OpResult where
  success : Bool
  message : String
deriving DecidableEq, Repr

/-- The modelled DynamoDB table: a list of items.  DynamoDB keys items by
`(partition key, sort key) = (carer_id, date_time_slot)`; lookups below take
the first item with a matching key. -/
abbrev Store := List TimeSlot

/-- Key lookup in the table: the item (if any) whose primary key is
`(carer, dts)`. -/
def findSlot (store : Store) (carer dts : String) : Option TimeSlot :=
  store.find? (fun s => s.carer_id == carer && s.date_time_slot == dts)

/-- Replace the (first, hence unique) item with primary key `(carer, dts)`
by `f` of it; no-op when no item has that key.  This is the write half of a
DynamoDB `UpdateCommand` on an existing item. -/
def updateSlot (store : Store) (carer dts : String) (f : TimeSlot → TimeSlot) :
    Store :=
  match store with
  | [] => []
  | x :: xs =>
    if x.carer_id == carer && x.date_time_slot == dts then f x :: xs
    else x :: updateSlot xs carer dts f

/-- Outcome of one atomic conditional `UpdateCommand` issued through
`docClient.send`:
either the write applied (`ok` with the new table), the
`ConditionExpression` failed (DynamoDB throws
`ConditionalCheckFailedException`, also when the key does not exist), or the
store itself failed (connectivity, throttling, any unexpected error). -/
inductive DynOutcome where
  | ok (newStore : Store)
  | condCheckFailed
  | storeError (e : String)

/-- One atomic conditional update against key `(carer, dts)`: condition
`cond` on the current item, update `f`.  A `fault` models the store call
failing with an unexpected error instead of executing. -/
def condUpdate (fault : Option String) (store : Store) (carer dts : String)
    (cond : TimeSlot → Bool) (f : TimeSlot → TimeSlot) : DynOutcome :=
  match fault with
  | some e => .storeError e
  | none =>
    match findSlot store carer dts with
    | none => .condCheckFailed
    | some s =>
      if cond s then .ok (updateSlot store carer dts f) else .condCheckFailed

/-- Method `bookAppointment` of `HealthCarerDynamoDB`: an `UpdateCommand` with
`UpdateExpression 'SET availability = :booked, booking_person_name = :person_name'`
and `ConditionExpression 'availability = :free'` on key
`(booking.carer_id, booking.date + "#" + booking.time_slot)`; a
`ConditionalCheckFailedException` is caught and turned into the business
failure result, any other error is rethrown (`Except.error`). -/
def bookAppointment (fault : Option String) (store : Store)
    (booking : BookingRequest) : Store × Except String OpResult :=
  let dateTimeSlot := booking.date ++ "#" ++ booking.time_slot
  match condUpdate fault store booking.carer_id dateTimeSlot
      (fun s => s.availability == .Free)
      (fun s => { s with availability := .Booked,
                         booking_person_name := some booking.person_name }) with
  | .ok st => (st, .ok ⟨true, "Appointment booked successfully"⟩)
  | .condCheckFailed =>
      (store, .ok ⟨false, "Time slot is already booked or does not exist"⟩)
  | .storeError e => (store, .error e)

/-- Method `cancelAppointment` of `HealthCarerDynamoDB`: an `UpdateCommand` with
`UpdateExpression 'SET availability = :free REMOVE booking_person_name'`
and `ConditionExpression 'availability = :booked'`; a
`ConditionalCheckFailedException` is caught and turned into the business
failure result, any other error is rethrown. -/
def cancelAppointment (fault : Option String) (store : Store)
    (carer_id date time_slot : String) : Store × Except String OpResult :=
  let dateTimeSlot := date ++ "#" ++ time_slot
  match condUpdate fault store carer_id dateTimeSlot
      (fun s => s.availability == .Booked)
      (fun s => { s with availability := .Free,
                         booking_person_name := none }) with
  | .ok st => (st, .ok ⟨true, "Appointment cancelled successfully"⟩)
  | .condCheckFailed =>
      (store, .ok ⟨false, "No booking found for this time slot"⟩)
  | .storeError e => (store, .error e)

/-- JavaScript `n.toString().padStart(2, '0')` for a natural number. -/
def padStart2 (s : String) : String :=
  if s.length ≥ 2 then s
  else String.mk (List.replicate (2 - s.length) '0') ++ s

/-- Method `generateTimeSlots` of `HealthCarerDynamoDB`: the loop
`for (hour = 9; hour <= 15; hour++)` visits hours `9..15`
(`List.range' 9 7`), and `for (minute = 0; minute < 60; minute += 30)`
visits minutes `0, 30` (`List.range' 0 2 30`); each iteration pushes
`hour.toString().padStart(2,'0') + minute.toString().padStart(2,'0')`. -/
def generateTimeSlots : List String :=
  (List.range' 9 7).flatMap fun hour =>
    (List.range' 0 2 30).map fun minute =>
      padStart2 (toString hour) ++ padStart2 (toString minute)

/-- The hardcoded carers of `initializeTimeSlots` (the TypeScript source,
`part_001`). -/
def initCarers : List String := ["Doctor1", "Doctor2", "doctor3"]

/-- The hardcoded dates of `initializeTimeSlots`. -/
def initDates : List String := ["20250728", "20250729", "20250730"]

/-- The item built for one `(carer, date, timeSlot)` triple inside
`initializeTimeSlots`: `availability: 'Free'` and no
`booking_person_name` attribute. -/
def initItem (carer date timeSlot : String) : TimeSlot :=
  { carer_id := carer
    date_time_slot := date ++ "#" ++ timeSlot
    availability := .Free
    booking_person_name := none
    date := date
    time_slot := timeSlot }

/-- The full list of items `initializeTimeSlots` attempts to create, in its
triple-nested loop order (carer, then date, then time slot). -/
def initItems : List TimeSlot :=
  initCarers.flatMap fun carer =>
    initDates.flatMap fun date =>
      generateTimeSlots.map fun timeSlot => initItem carer date timeSlot

/-- One seeding write of `initializeTimeSlots`: a `PutCommand` with
`ConditionExpression 'attribute_not_exists(carer_id)'` (create only if the
key is absent) followed by `.catch(() => \x7b\x7d)`, which swallows EVERY
rejection of the promise — the conditional-check failure AND any store
error — so the write never signals and a faulted write simply leaves the
table as it was. -/
def initPut (fault : Option String) (store : Store) (item : TimeSlot) :
    Store :=
  match fault with
  | some _ => store
  | none =>
    match findSlot store item.carer_id item.date_time_slot with
    | some _ => store
    | none => store ++ [item]

/-- Method `initializeTimeSlots` with a per-item fault model: issues one `initPut`
per catalogue item and `Promise.all`s them.  All writes of one run target
pairwise distinct keys and each is a single-key atomic put, so the
serialization below in loop order is faithful.  Because every write has its
own `.catch`, the whole operation never rejects: its type has no error
outcome. -/
def initializeTimeSlotsWith (faults : TimeSlot → Option String)
    (store : Store) : Store :=
  initItems.foldl (fun st item => initPut (faults item) st item) store

/-- Method `initializeTimeSlots` in a fault-free run of the store. -/
def initializeTimeSlots (store : Store) : Store :=
  initializeTimeSlotsWith (fun _ => none) store

/-- The `AvailabilityQuery` interface of `types.ts`: both fields optional
(`carer_id?`, `date?`). -/
structure AvailabilityQuery where
  carer_id : Option String
  date : Option String
deriving DecidableEq, Repr

/-- JavaScript truthiness of an optional string, as tested by
`if (query.carer_id && query.date)`: `undefined` and the empty string are
falsy. -/
def truthy : Option String → Bool
  | none => false
  | some s => !s.isEmpty

/-- Method `getAvailability` of `HealthCarerDynamoDB`.
If `query.carer_id && query.date`: a `QueryCommand` with
`carer_id = :carer_id AND begins_with(date_time_slot, :date)` — the items of
that partition whose sort key has the date as a prefix.  Else if
`query.carer_id`: a `QueryCommand` over the whole partition.  Else: a
`ScanCommand` over the whole table. -/
def getAvailability (store : Store) (query : AvailabilityQuery) :
    List TimeSlot :=
  if truthy query.carer_id && truthy query.date then
    store.filter fun s =>
      s.carer_id == query.carer_id.getD "" &&
        (query.date.getD "").data.isPrefixOf s.date_time_slot.data
  else if truthy query.carer_id then
    store.filter fun s => s.carer_id == query.carer_id.getD ""
  else
    store

/-! ## Transport-adapter validation layers -/

/-- A JSON/JS value as far as the adapters' checks observe it: a string or
anything else. -/
inductive JsValue where
  | str (s : String)
  | other
deriving DecidableEq, Repr

/-- The argument object of the MCP `book_appointment` tool: each field either
absent or some JS value. -/
structure McpBookArgs where
  carer_id : Option JsValue
  date : Option JsValue
  time_slot : Option JsValue
  person_name : Option JsValue
deriving DecidableEq, Repr

/-- The check the MCP server (`server.ts`) runs on one required field of
`book_appointment` / `cancel_appointment`:
`(field in args) && typeof args[field] === 'string'`.  Note it does NOT
reject the empty string. -/
def mcpFieldOk : Option JsValue → Bool
  | some (.str _) => true
  | _ => false

/-- The validation loop of the MCP `book_appointment` handler over
`['carer_id', 'date', 'time_slot', 'person_name']`: `true` means validation
passes and the handler goes on to call `db.bookAppointment`. -/
def mcpBookValid (args : McpBookArgs) : Bool :=
  mcpFieldOk args.carer_id && mcpFieldOk args.date &&
    mcpFieldOk args.time_slot && mcpFieldOk args.person_name

/-- The response of the MCP `book_appointment` handler as it bears on store
access: a validation error thrown before any store access, a rethrown store
error, or the business result of `db.bookAppointment`. -/
inductive McpBookResponse where
  | validationError
  | storeFailure (e : String)
  | result (r : OpResult)
deriving DecidableEq, Repr

/-- Extract the string of a JS value, `""` for the impossible non-string case
(only reached after `mcpFieldOk`). -/
def jsStr : Option JsValue → String
  | some (.str s) => s
  | _ => ""

/-- The MCP `book_appointment` handler (`server.ts`): validate the four
required fields (presence and string type only), then call
`db.bookAppointment` with them.  Returns the table after the call together
with the response; on validation failure the store is never touched. -/
def mcpBookHandler (fault : Option String) (store : Store)
    (args : McpBookArgs) : Store × McpBookResponse :=
  if mcpBookValid args then
    let booking : BookingRequest :=
      { carer_id := jsStr args.carer_id
        date := jsStr args.date
        time_slot := jsStr args.time_slot
        person_name := jsStr args.person_name }
    match bookAppointment fault store booking with
    | (st, .ok r) => (st, .result r)
    | (st, .error e) => (st, .storeFailure e)
  else
    (store, .validationError)

/-- The JSON body of a REST `POST /api/book` request: each field absent or a
string. -/
structure RestBookBody where
  carer_id : Option String
  date : Option String
  time_slot : Option String
  person_name : Option String
deriving DecidableEq, Repr

/-- The express handler's check `if (!carer_id || !date || !time_slot ||
!person_name)`: a field must be present and truthy (non-empty). -/
def restBookValid (body : RestBookBody) : Bool :=
  truthy body.carer_id && truthy body.date &&
    truthy body.time_slot && truthy body.person_name

/-- The response of the REST `POST /api/book` handler as it bears on store
access: HTTP 400 with the missing-fields error (before any store access),
HTTP 500 from a rethrown store error, or the business result of
`db.bookAppointment` (HTTP 200 on success, 400 on business failure). -/
inductive RestBookResponse where
  | validationError400
  | serverError500 (e : String)
  | result (r : OpResult)
deriving DecidableEq, Repr

/-- The express `POST /api/book` handler (`part_001`): reject with 400 when
any field is missing or empty, before any store access; otherwise call
`db.bookAppointment`. -/
def restBookHandler (fault : Option String) (store : Store)
    (body : RestBookBody) : Store × RestBookResponse :=
  if restBookValid body then
    let booking : BookingRequest :=
      { carer_id := body.carer_id.getD ""
        date := body.date.getD ""
        time_slot := body.time_slot.getD ""
        person_name := body.person_name.getD "" }
    match bookAppointment fault store booking with
    | (st, .ok r) => (st, .result r)
    | (st, .error e) => (st, .serverError500 e)
  else
    (store, .validationError400)

/-! ## Execution models for the claims -/

/-- One fault-free `bookAppointment` call, with the business result extracted.
With `fault = none` the operation never throws (proved below), so the
`.error` arm is unreachable and only kept for totality. -/
def book1 (store : Store) (b : BookingRequest) : Store × OpResult :=
  let r := bookAppointment none store b
  (r.1, match r.2 with | .ok res => res | .error e => ⟨false, e⟩)

/-- Serialized execution of a batch of `bookAppointment` calls.  Every
`bookAppointment` is a single atomic conditional write on one key, so an
arbitrary concurrent interleaving of N such calls is exactly a sequential
execution of the N atomic writes in some order; quantifying over all request
lists therefore covers all interleavings of all batches. -/
def bookSerial (store : Store) : List BookingRequest → Store × List OpResult
  | [] => (store, [])
  | b :: rest =>
    let step := book1 store b
    let next := bookSerial step.1 rest
    (next.1, step.2 :: next.2)

/-- One core operation together with its injected store fault(s), for
reasoning about every reachable state of the table. -/
inductive Op where
  | init (faults : TimeSlot → Option String)
  | book (fault : Option String) (b : BookingRequest)
  | cancel (fault : Option String) (carer_id date time_slot : String)

/-- Apply one operation to the table, keeping only the resulting state. -/
def applyOp (store : Store) : Op → Store
  | .init faults => initializeTimeSlotsWith faults store
  | .book fault b => (bookAppointment fault store b).1
  | .cancel fault c d t => (cancelAppointment fault store c d t).1

/-- The table after a sequence of operations. -/
def runOps (store : Store) (ops : List Op) : Store :=
  ops.foldl applyOp store

/-- The example catalogue of the spec's query-filter property:
`{Carer1,Carer2} × {20250725,20250726} × {0900,0930}`, all slots free. -/
def exampleCatalogue : Store :=
  ["Carer1", "Carer2"].flatMap fun c =>
    ["20250725", "20250726"].flatMap fun d =>
      ["0900", "0930"].map fun t => initItem c d t

/-- A store fault for one seeding write of `initializeTimeSlots`: the put for
key `(Doctor1, 20250728#0900)` is rejected with a throttling error, every
other write succeeds. -/
def throttleOneFault : TimeSlot → Option String := fun item =>
  if item.carer_id == "Doctor1" && item.date_time_slot == "20250728#0900"
  then some "ProvisionedThroughputExceededException" else none

/-- A one-slot table holding the free slot `(Carer1, 20250725#0900)`. -/
def oneFreeSlotStore : Store := [initItem "Carer1" "20250725" "0900"]

/-- A one-slot table holding `(Carer1, 20250725#0900)` already booked by
Alice. -/
def oneBookedSlotStore : Store :=
  [{ initItem "Carer1" "20250725" "0900" with
       availability := .Booked, booking_person_name := some "Alice" }]

/-- Two booking requests racing for the same slot key. -/
def twoBookReqs : List BookingRequest :=
  [⟨"Carer1", "20250725", "0900", "Alice"⟩,
   ⟨"Carer1", "20250725", "0900", "Bob"⟩]

/-- A slot of the seeded catalogue key space that is already booked, used to
check that re-seeding does not overwrite it. -/
def bookedSlotDoctor : TimeSlot :=
  { carer_id := "Doctor1"
    date_time_slot := "20250728#0900"
    availability := .Booked
    booking_person_name := some "Alice"
    date := "20250728"
    time_slot := "0900" }

/-- MCP `book_appointment` arguments in which all four required fields are
present strings but `person_name` is the empty string. -/
def emptyNameArgs : McpBookArgs :=
  { carer_id := some (.str "Carer1")
    date := some (.str "20250725")
    time_slot := some (.str "0900")
    person_name := some (.str "") }

/-! ## General lemmas about the modelled table -/

theorem findSlot_cons (x : TimeSlot) (xs : Store) (c k : String) :
    findSlot (x :: xs) c k =
      if x.carer_id == c && x.date_time_slot == k then some x
      else findSlot xs c k := by
  cases h : (x.carer_id == c && x.date_time_slot == k) <;>
    simp [findSlot, List.find?_cons, h]

theorem findSlot_append (s l : Store) (c k : String) :
    findSlot (s ++ l) c k = (findSlot s c k).or (findSlot l c k) := by
  simp [findSlot]

theorem findSlot_self_singleton (x : TimeSlot) :
    findSlot [x] x.carer_id x.date_time_slot = some x := by
  simp [findSlot, List.find?_cons]

/-! ## C7: the time-slot generator -/

/-- C7: the time-slot generator with start hour 9, end hour 15 and interval
30 minutes produces exactly 14 distinct 4-digit time strings, the first
being "0900" and the last "1530", with the sequence strictly increasing. -/
theorem generateTimeSlots_correct :
    generateTimeSlots.length = 14 ∧
    generateTimeSlots.head? = some "0900" ∧
    generateTimeSlots.getLast? = some "1530" ∧
    List.Pairwise (· < ·) generateTimeSlots ∧
    generateTimeSlots.Nodup ∧
    (generateTimeSlots.all fun s => s.length == 4) = true := by
  refine ⟨by decide, by decide, by decide, ?_, by decide, by decide⟩
  have h : List.Pairwise (fun a b : String => a.toList < b.toList)
      generateTimeSlots := by decide
  exact h.imp fun hab => String.lt_iff_toList_lt.mpr hab

/-! ## C10: date filter without a carer filter is ignored -/

/-- C10: when `date` is supplied but `carer_id` is absent or the empty
string, `getAvailability` ignores the date entirely and does the
full-catalogue scan, returning every stored slot. -/
theorem getAvailability_date_without_carer_scans_all (store : Store)
    (d : String) :
    getAvailability store ⟨none, some d⟩ = store ∧
    getAvailability store ⟨some "", some d⟩ = store := by
  have h2 : String.isEmpty "" = true := rfl
  constructor <;> simp [getAvailability, truthy, h2]

/-! ## C8: query filter correctness -/

/-- C8: `getAvailability` returns exactly the slots selected by the supplied
filters — with carer and date, the slots of that carer whose
`date_time_slot` key has the date as a prefix; with only a carer, all of that
carer's slots; with neither, the whole catalogue.  On the example catalogue
`{Carer1,Carer2} × {20250725,20250726} × {0900,0930}` the three query shapes
return exactly 2, 4 and 8 slots. -/
theorem getAvailability_filter_correct :
    (∀ (store : Store) (c d : String) (x : TimeSlot), c ≠ "" → d ≠ "" →
      (x ∈ getAvailability store ⟨some c, some d⟩ ↔
        x ∈ store ∧ x.carer_id = c ∧
          d.data.isPrefixOf x.date_time_slot.data = true)) ∧
    (∀ (store : Store) (c : String) (x : TimeSlot), c ≠ "" →
      (x ∈ getAvailability store ⟨some c, none⟩ ↔
        x ∈ store ∧ x.carer_id = c)) ∧
    (∀ store : Store, getAvailability store ⟨none, none⟩ = store) ∧
    getAvailability exampleCatalogue ⟨some "Carer1", some "20250725"⟩ =
      [initItem "Carer1" "20250725" "0900",
       initItem "Carer1" "20250725" "0930"] ∧
    (getAvailability exampleCatalogue ⟨some "Carer1", none⟩).length = 4 ∧
    (getAvailability exampleCatalogue ⟨none, none⟩).length = 8 := by
  refine ⟨?_, ?_, ?_, by decide, by decide, by decide⟩
  · intro store c d x hc hd
    have hce : c.isEmpty = false := by
      cases h : c.isEmpty
      · rfl
      · exact absurd ((String.isEmpty_iff c).mp h) hc
    have hde : d.isEmpty = false := by
      cases h : d.isEmpty
      · rfl
      · exact absurd ((String.isEmpty_iff d).mp h) hd
    simp [getAvailability, truthy, hce, hde, List.mem_filter, Option.getD,
      and_assoc]
  · intro store c x hc
    have hce : c.isEmpty = false := by
      cases h : c.isEmpty
      · rfl
      · exact absurd ((String.isEmpty_iff c).mp h) hc
    simp [getAvailability, truthy, hce, List.mem_filter, Option.getD]
  · intro store
    simp [getAvailability, truthy]

/-- Witness for C8: the slot `(Carer1, 20250725#0900)` is returned by the
carer-and-date query on the example catalogue exactly because it belongs to
Carer1 and its key starts with the date. -/
theorem getAvailability_filter_correct_witness :
    initItem "Carer1" "20250725" "0900" ∈
        getAvailability exampleCatalogue ⟨some "Carer1", some "20250725"⟩ ↔
      initItem "Carer1" "20250725" "0900" ∈ exampleCatalogue ∧
        (initItem "Carer1" "20250725" "0900").carer_id = "Carer1" ∧
        "20250725".data.isPrefixOf
          (initItem "Carer1" "20250725" "0900").date_time_slot.data = true :=
  getAvailability_filter_correct.1 exampleCatalogue "Carer1" "20250725"
    (initItem "Carer1" "20250725" "0900") (by decide) (by decide)

/-! ## C2: precondition failures versus store errors -/

/-- C2: when the conditional write fails its precondition (slot not Free for
book, slot not Booked for cancel, or slot absent — `Option.all` of the
looked-up slot captures all of these), the operation returns the
business-failure result with the exact message and leaves the table
unchanged; any other store error is rethrown to the caller, never collapsed
into the business-failure result. -/
theorem precondition_failure_vs_store_error :
    (∀ (store : Store) (b : BookingRequest),
      Option.all (fun x => !(x.availability == Availability.Free))
          (findSlot store b.carer_id (b.date ++ "#" ++ b.time_slot)) = true →
      bookAppointment none store b =
        (store, .ok ⟨false, "Time slot is already booked or does not exist"⟩)) ∧
    (∀ (store : Store) (c d t : String),
      Option.all (fun x => !(x.availability == Availability.Booked))
          (findSlot store c (d ++ "#" ++ t)) = true →
      cancelAppointment none store c d t =
        (store, .ok ⟨false, "No booking found for this time slot"⟩)) ∧
    (∀ (e : String) (store : Store) (b : BookingRequest),
      bookAppointment (some e) store b = (store, .error e)) ∧
    (∀ (e : String) (store : Store) (c d t : String),
      cancelAppointment (some e) store c d t = (store, .error e)) := by
  refine ⟨?_, ?_, ?_, ?_⟩
  · intro store b h
    cases hf : findSlot store b.carer_id (b.date ++ "#" ++ b.time_slot) with
    | none => simp [bookAppointment, condUpdate, hf]
    | some x =>
      rw [hf] at h
      simp [Option.all] at h
      simp [bookAppointment, condUpdate, hf, h]
  · intro store c d t h
    cases hf : findSlot store c (d ++ "#" ++ t) with
    | none => simp [cancelAppointment, condUpdate, hf]
    | some x =>
      rw [hf] at h
      simp [Option.all] at h
      simp [cancelAppointment, condUpdate, hf, h]
  · intro e store b
    simp [bookAppointment, condUpdate]
  · intro e store c d t
    simp [cancelAppointment, condUpdate]

/-- Witness for C2 at concrete inputs: booking an already-booked slot,
cancelling a free slot, and a throttled store call on each operation. -/
theorem precondition_failure_vs_store_error_witness :
    bookAppointment none oneBookedSlotStore ⟨"Carer1", "20250725", "0900", "Bob"⟩ =
      (oneBookedSlotStore,
       .ok ⟨false, "Time slot is already booked or does not exist"⟩) ∧
    cancelAppointment none oneFreeSlotStore "Carer1" "20250725" "0900" =
      (oneFreeSlotStore, .ok ⟨false, "No booking found for this time slot"⟩) ∧
    bookAppointment (some "throttled") oneFreeSlotStore
        ⟨"Carer1", "20250725", "0900", "Bob"⟩ =
      (oneFreeSlotStore, .error "throttled") ∧
    cancelAppointment (some "throttled") oneBookedSlotStore
        "Carer1" "20250725" "0900" =
      (oneBookedSlotStore, .error "throttled") :=
  ⟨precondition_failure_vs_store_error.1 oneBookedSlotStore _ (by decide),
   precondition_failure_vs_store_error.2.1 oneFreeSlotStore "Carer1" "20250725"
     "0900" (by decide),
   precondition_failure_vs_store_error.2.2.1 "throttled" oneFreeSlotStore _,
   precondition_failure_vs_store_error.2.2.2 "throttled" oneBookedSlotStore
     "Carer1" "20250725" "0900"⟩

/-! ## C9: validation of BookAppointment requests -/

/-- C9 counterexample: a `book_appointment` request through the MCP adapter
whose `person_name` is the empty string is NOT rejected — it passes the
handler validation, reaches the store and even books the slot with the
empty name, contradicting the claim that every missing-or-empty field is
rejected with a validation error before any store access. -/
theorem mcp_empty_name_reaches_store :
    mcpBookValid emptyNameArgs = true ∧
    mcpBookHandler none oneFreeSlotStore emptyNameArgs =
      ([{ initItem "Carer1" "20250725" "0900" with
            availability := .Booked, booking_person_name := some "" }],
       .result ⟨true, "Appointment booked successfully"⟩) := by
  constructor
  · decide
  · decide

/-- C9 (amended): a request with a missing field is rejected before any store
access by both adapters; the REST `/api/book` handler also rejects
empty-string fields, while the MCP `book_appointment` handler rejects
non-string values but accepts empty strings, which therefore reach the state
machine.  -/
theorem book_validation_amended :
    (∀ (fault : Option String) (store : Store) (body : RestBookBody),
      (body.carer_id = none ∨ body.carer_id = some "" ∨
       body.date = none ∨ body.date = some "" ∨
       body.time_slot = none ∨ body.time_slot = some "" ∨
       body.person_name = none ∨ body.person_name = some "") →
      restBookHandler fault store body = (store, .validationError400)) ∧
    (∀ (fault : Option String) (store : Store) (args : McpBookArgs),
      (args.carer_id = none ∨ args.carer_id = some .other ∨
       args.date = none ∨ args.date = some .other ∨
       args.time_slot = none ∨ args.time_slot = some .other ∨
       args.person_name = none ∨ args.person_name = some .other) →
      mcpBookHandler fault store args = (store, .validationError)) ∧
    (∀ s1 s2 s3 s4 : String,
      mcpBookValid ⟨some (.str s1), some (.str s2), some (.str s3),
        some (.str s4)⟩ = true) := by
  refine ⟨?_, ?_, ?_⟩
  · intro fault store body h
    have hv : restBookValid body = false := by
      rcases h with h | h | h | h | h | h | h | h <;>
        simp [restBookValid, truthy, h, show String.isEmpty "" = true from rfl]
    simp [restBookHandler, hv]
  · intro fault store args h
    have hv : mcpBookValid args = false := by
      rcases h with h | h | h | h | h | h | h | h <;>
        simp [mcpBookValid, mcpFieldOk, h]
    simp [mcpBookHandler, hv]
  · intro s1 s2 s3 s4
    simp [mcpBookValid, mcpFieldOk]

/-- Witness for the amended C9: a REST book request with an empty
`person_name` gets the 400 validation error without touching the store; an
MCP book request with a missing `carer_id` is likewise rejected; four
present non-empty strings pass the MCP validation. -/
theorem book_validation_amended_witness :
    restBookHandler none oneFreeSlotStore
        ⟨some "Carer1", some "20250725", some "0900", some ""⟩ =
      (oneFreeSlotStore, .validationError400) ∧
    mcpBookHandler none oneFreeSlotStore
        ⟨none, some (.str "20250725"), some (.str "0900"),
         some (.str "Bob")⟩ =
      (oneFreeSlotStore, .validationError) ∧
    mcpBookValid ⟨some (.str "Carer1"), some (.str "20250725"),
      some (.str "0900"), some (.str "Bob")⟩ = true :=
  ⟨book_validation_amended.1 none oneFreeSlotStore _
     (Or.inr (Or.inr (Or.inr (Or.inr (Or.inr (Or.inr (Or.inr rfl))))))),
   book_validation_amended.2.1 none oneFreeSlotStore _ (Or.inl rfl),
   book_validation_amended.2.2 "Carer1" "20250725" "0900" "Bob"⟩

/-! ## Lemmas about conditional updates -/

theorem updateSlot_cons (x : TimeSlot) (xs : Store) (c k : String)
    (f : TimeSlot → TimeSlot) :
    updateSlot (x :: xs) c k f =
      if x.carer_id == c && x.date_time_slot == k then f x :: xs
      else x :: updateSlot xs c k f := rfl

theorem findSlot_updateSlot_self (s : Store) (c k : String)
    (f : TimeSlot → TimeSlot) (x : TimeSlot)
    (hf : findSlot s c k = some x)
    (hc : (f x).carer_id = x.carer_id)
    (hk : (f x).date_time_slot = x.date_time_slot) :
    findSlot (updateSlot s c k f) c k = some (f x) := by
  induction s with
  | nil => simp [findSlot] at hf
  | cons y ys ih =>
    rw [findSlot_cons] at hf
    rw [updateSlot_cons]
    cases hmatch : (y.carer_id == c && y.date_time_slot == k) with
    | true =>
      rw [hmatch] at hf
      simp only [if_true] at hf
      cases hf
      simp [findSlot_cons, hc, hk, hmatch]
    | false =>
      rw [hmatch] at hf
      simp only [Bool.false_eq_true, if_false] at hf
      simp [findSlot_cons, hmatch, ih hf]

theorem bookAppointment_of_free (store : Store) (b : BookingRequest)
    (x : TimeSlot)
    (hf : findSlot store b.carer_id (b.date ++ "#" ++ b.time_slot) = some x)
    (hfree : x.availability = Availability.Free) :
    bookAppointment none store b =
      (updateSlot store b.carer_id (b.date ++ "#" ++ b.time_slot)
        (fun s => { s with availability := .Booked,
                           booking_person_name := some b.person_name }),
       .ok ⟨true, "Appointment booked successfully"⟩) := by
  simp [bookAppointment, condUpdate, hf, hfree]

theorem bookAppointment_of_booked (store : Store) (b : BookingRequest)
    (x : TimeSlot)
    (hf : findSlot store b.carer_id (b.date ++ "#" ++ b.time_slot) = some x)
    (hbooked : x.availability = Availability.Booked) :
    bookAppointment none store b =
      (store, .ok ⟨false, "Time slot is already booked or does not exist"⟩) := by
  simp [bookAppointment, condUpdate, hf, hbooked]

theorem bookSerial_of_booked (reqs : List BookingRequest) (store : Store)
    (c d t : String) (x : TimeSlot)
    (hf : findSlot store c (d ++ "#" ++ t) = some x)
    (hbooked : x.availability = Availability.Booked)
    (htarget : ∀ b ∈ reqs, b.carer_id = c ∧ b.date = d ∧ b.time_slot = t) :
    bookSerial store reqs =
      (store, reqs.map fun _ =>
        (⟨false, "Time slot is already booked or does not exist"⟩ : OpResult)) := by
  induction reqs with
  | nil => rfl
  | cons b rest ih =>
    obtain ⟨hbc, hbd, hbt⟩ := htarget b (List.mem_cons_self _ _)
    have hb : bookAppointment none store b =
        (store, .ok ⟨false, "Time slot is already booked or does not exist"⟩) := by
      refine bookAppointment_of_booked store b x ?_ hbooked
      rw [hbc, hbd, hbt]; exact hf
    have hrest := ih fun b hb => htarget b (List.mem_cons_of_mem _ hb)
    simp [bookSerial, book1, hb, hrest]

theorem filter_map_const_of_neg {α : Type} (l : List α) (y : OpResult)
    (p : OpResult → Bool) (hy : p y = false) :
    ((l.map fun _ => y).filter p) = [] := by
  induction l with
  | nil => rfl
  | cons a l ih => simp [List.filter_cons, hy, ih]

theorem filter_map_const_of_pos {α : Type} (l : List α) (y : OpResult)
    (p : OpResult → Bool) (hy : p y = true) :
    ((l.map fun _ => y).filter p) = l.map fun _ => y := by
  induction l with
  | nil => rfl
  | cons a l ih => simp [List.filter_cons, hy, ih]

/-! ## C1: at most one concurrent booking succeeds -/

/-- C1: among any non-empty batch of `BookAppointment` calls against one slot
key whose stored availability is Free, executed in any serialization order
(each call is one atomic conditional write, so every concurrent interleaving
is such an order), exactly one call succeeds and every other call fails with
the SlotUnavailable message. -/
theorem concurrent_book_exactly_one_success
    (store : Store) (c d t : String) (x : TimeSlot)
    (reqs : List BookingRequest)
    (hf : findSlot store c (d ++ "#" ++ t) = some x)
    (hfree : x.availability = Availability.Free)
    (hne : reqs ≠ [])
    (htarget : ∀ b ∈ reqs, b.carer_id = c ∧ b.date = d ∧ b.time_slot = t) :
    ((bookSerial store reqs).2.filter (fun r => r.success)).length = 1 ∧
    ((bookSerial store reqs).2.filter (fun r => !r.success)).length =
      reqs.length - 1 ∧
    ∀ r ∈ (bookSerial store reqs).2, r.success = false →
      r.message = "Time slot is already booked or does not exist" := by
  cases reqs with
  | nil => exact absurd rfl hne
  | cons b rest =>
    obtain ⟨hbc, hbd, hbt⟩ := htarget b (List.mem_cons_self _ _)
    have hb := bookAppointment_of_free store b x
      (by rw [hbc, hbd, hbt]; exact hf) hfree
    rw [hbc, hbd, hbt] at hb
    have hfind1 := findSlot_updateSlot_self store c (d ++ "#" ++ t)
      (fun s => { s with availability := .Booked,
                         booking_person_name := some b.person_name })
      x hf rfl rfl
    have hrest := bookSerial_of_booked rest
      (updateSlot store c (d ++ "#" ++ t)
        (fun s => { s with availability := .Booked,
                           booking_person_name := some b.person_name }))
      c d t _ hfind1 rfl
      (fun b hb => htarget b (List.mem_cons_of_mem _ hb))
    have hrun : bookSerial store (b :: rest) =
        ((bookSerial store (b :: rest)).1,
         ⟨true, "Appointment booked successfully"⟩ ::
           (rest.map fun _ =>
             (⟨false, "Time slot is already booked or does not exist"⟩ :
               OpResult))) := by
      simp [bookSerial, book1, hb, hrest]
    rw [hrun]
    refine ⟨?_, ?_, ?_⟩
    · simp [List.filter_cons,
        filter_map_const_of_neg rest
          (⟨false, "Time slot is already booked or does not exist"⟩ : OpResult)
          (fun r => r.success) rfl]
    · simp [List.filter_cons,
        filter_map_const_of_pos rest
          (⟨false, "Time slot is already booked or does not exist"⟩ : OpResult)
          (fun r => !r.success) rfl]
    · intro r hr hrf
      rcases List.mem_cons.mp hr with rfl | hr'
      · exact absurd hrf (by simp)
      · obtain ⟨a, _, rfl⟩ := List.mem_map.mp hr'
        rfl

/-- Witness for C1: two concurrent booking requests for the free slot
`(Carer1, 20250725#0900)` — one succeeds, one gets SlotUnavailable. -/
theorem concurrent_book_exactly_one_success_witness :
    ((bookSerial oneFreeSlotStore twoBookReqs).2.filter
        (fun r => r.success)).length = 1 ∧
    ((bookSerial oneFreeSlotStore twoBookReqs).2.filter
        (fun r => !r.success)).length = twoBookReqs.length - 1 ∧
    ∀ r ∈ (bookSerial oneFreeSlotStore twoBookReqs).2, r.success = false →
      r.message = "Time slot is already booked or does not exist" :=
  concurrent_book_exactly_one_success oneFreeSlotStore "Carer1" "20250725"
    "0900" (initItem "Carer1" "20250725" "0900") twoBookReqs (by decide)
    (by decide) (by decide) (by decide)

/-! ## C6: book followed by cancel restores the slot -/

theorem updateSlot_updateSlot (s : Store) (c k : String)
    (f g : TimeSlot → TimeSlot)
    (hf : ∀ y, (f y).carer_id = y.carer_id ∧
      (f y).date_time_slot = y.date_time_slot) :
    updateSlot (updateSlot s c k f) c k g =
      updateSlot s c k (fun y => g (f y)) := by
  induction s with
  | nil => rfl
  | cons y ys ih =>
    cases hmatch : (y.carer_id == c && y.date_time_slot == k) with
    | true =>
      simp [updateSlot_cons, hmatch, (hf y).1, (hf y).2]
    | false =>
      simp [updateSlot_cons, hmatch, ih]

theorem updateSlot_id_of_found (s : Store) (c k : String)
    (h : TimeSlot → TimeSlot) (x : TimeSlot)
    (hfind : findSlot s c k = some x) (hx : h x = x) :
    updateSlot s c k h = s := by
  induction s with
  | nil => rfl
  | cons y ys ih =>
    rw [findSlot_cons] at hfind
    cases hmatch : (y.carer_id == c && y.date_time_slot == k) with
    | true =>
      rw [hmatch] at hfind
      simp only [if_true] at hfind
      cases hfind
      simp [updateSlot_cons, hmatch, hx]
    | false =>
      rw [hmatch] at hfind
      simp only [Bool.false_eq_true, if_false] at hfind
      simp [updateSlot_cons, hmatch, ih hfind]

theorem cancelAppointment_of_booked (store : Store) (c d t : String)
    (x : TimeSlot)
    (hfind : findSlot store c (d ++ "#" ++ t) = some x)
    (hbooked : x.availability = Availability.Booked) :
    cancelAppointment none store c d t =
      (updateSlot store c (d ++ "#" ++ t)
        (fun s => { s with availability := .Free,
                           booking_person_name := none }),
       .ok ⟨true, "Appointment cancelled successfully"⟩) := by
  simp [cancelAppointment, condUpdate, hfind, hbooked]

/-- C6: on a slot that is Free with no stored name, `book(c,d,t,name)`
followed by `cancel(c,d,t)` succeeds and returns the ENTIRE table to exactly
its prior state — the cancellation removes the name attribute, so the
round trip holds for every person name and hence across repeated
book/cancel cycles with different names. -/
theorem book_cancel_roundtrip (store : Store) (c d t name : String)
    (x : TimeSlot)
    (hfind : findSlot store c (d ++ "#" ++ t) = some x)
    (hfree : x.availability = Availability.Free)
    (hname : x.booking_person_name = none) :
    (bookAppointment none store ⟨c, d, t, name⟩).2 =
      .ok ⟨true, "Appointment booked successfully"⟩ ∧
    cancelAppointment none (bookAppointment none store ⟨c, d, t, name⟩).1
        c d t =
      (store, .ok ⟨true, "Appointment cancelled successfully"⟩) := by
  have hb := bookAppointment_of_free store ⟨c, d, t, name⟩ x hfind hfree
  rw [hb]
  refine ⟨rfl, ?_⟩
  have hfind1 := findSlot_updateSlot_self store c (d ++ "#" ++ t)
    (fun s => { s with availability := .Booked,
                       booking_person_name := some name })
    x hfind rfl rfl
  rw [cancelAppointment_of_booked _ c d t _ hfind1 rfl]
  rw [updateSlot_updateSlot store c (d ++ "#" ++ t)
    (fun s => { s with availability := .Booked,
                       booking_person_name := some name })
    (fun s => { s with availability := .Free, booking_person_name := none })
    (fun y => ⟨rfl, rfl⟩)]
  rw [updateSlot_id_of_found store c (d ++ "#" ++ t) _ x hfind ?_]
  cases x with
  | mk xc xk xa xn xd xt =>
    simp at hfree hname
    simp [hfree, hname]

/-- Witness for C6: booking the free slot `(Carer1, 20250725#0900)` for Bob
and cancelling it restores the one-slot table exactly. -/
theorem book_cancel_roundtrip_witness :
    (bookAppointment none oneFreeSlotStore
        ⟨"Carer1", "20250725", "0900", "Bob"⟩).2 =
      .ok ⟨true, "Appointment booked successfully"⟩ ∧
    cancelAppointment none
        (bookAppointment none oneFreeSlotStore
          ⟨"Carer1", "20250725", "0900", "Bob"⟩).1 "Carer1" "20250725" "0900" =
      (oneFreeSlotStore,
       .ok ⟨true, "Appointment cancelled successfully"⟩) :=
  book_cancel_roundtrip oneFreeSlotStore "Carer1" "20250725" "0900" "Bob"
    (initItem "Carer1" "20250725" "0900") (by decide) (by decide) (by decide)

/-! ## C3: initialization is idempotent -/

theorem findSlot_initPut (s : Store) (item : TimeSlot) (c k : String)
    (x : TimeSlot) (h : findSlot s c k = some x) :
    findSlot (initPut none s item) c k = some x := by
  unfold initPut
  cases hfind : findSlot s item.carer_id item.date_time_slot with
  | some y => exact h
  | none => simp [findSlot_append, h]

theorem findSlot_initPut_self (s : Store) (item : TimeSlot) :
    (findSlot (initPut none s item)
      item.carer_id item.date_time_slot).isSome := by
  unfold initPut
  cases hfind : findSlot s item.carer_id item.date_time_slot with
  | some y => simp [hfind]
  | none => simp [findSlot_append, hfind, findSlot_self_singleton]

theorem findSlot_initFold (items : List TimeSlot) (s : Store) (c k : String)
    (x : TimeSlot) (h : findSlot s c k = some x) :
    findSlot (items.foldl (fun st item => initPut none st item) s) c k =
      some x := by
  induction items generalizing s with
  | nil => exact h
  | cons it its ih => exact ih _ (findSlot_initPut _ _ _ _ _ h)

theorem isSome_findSlot_initFold (items : List TimeSlot) (s : Store)
    (c k : String) (h : (findSlot s c k).isSome) :
    (findSlot (items.foldl (fun st item => initPut none st item) s)
      c k).isSome := by
  cases hx : findSlot s c k with
  | none => rw [hx] at h; simp at h
  | some x => simp [findSlot_initFold items s c k x hx]

theorem initFold_mem_present (items : List TimeSlot) (s : Store) :
    ∀ item ∈ items,
      (findSlot (items.foldl (fun st item => initPut none st item) s)
        item.carer_id item.date_time_slot).isSome := by
  induction items generalizing s with
  | nil => intro _ h; simp at h
  | cons it its ih =>
    intro item hmem
    rcases List.mem_cons.mp hmem with rfl | hmem'
    · exact isSome_findSlot_initFold its _ _ _ (findSlot_initPut_self s item)
    · exact ih (initPut none s it) item hmem'

theorem initPut_of_present (s : Store) (item : TimeSlot)
    (h : (findSlot s item.carer_id item.date_time_slot).isSome) :
    initPut none s item = s := by
  unfold initPut
  cases hfind : findSlot s item.carer_id item.date_time_slot with
  | some y => rfl
  | none => rw [hfind] at h; simp at h

theorem initFold_of_all_present (items : List TimeSlot) (s : Store)
    (h : ∀ item ∈ items,
      (findSlot s item.carer_id item.date_time_slot).isSome) :
    items.foldl (fun st item => initPut none st item) s = s := by
  induction items with
  | nil => rfl
  | cons it its ih =>
    rw [List.foldl_cons, initPut_of_present s it (h it (List.mem_cons_self _ _))]
    exact ih fun i hi => h i (List.mem_cons_of_mem _ hi)

theorem initializeTimeSlots_eq_foldl (store : Store) :
    initializeTimeSlots store =
      initItems.foldl (fun st item => initPut none st item) store := rfl

/-- C3: running `initializeTimeSlots` a second time leaves the table exactly
as after the first run, and an initialization run never changes any slot
already present — in particular it never overwrites an existing Booked slot
back to Free. -/
theorem initialize_idempotent :
    (∀ store : Store,
      initializeTimeSlots (initializeTimeSlots store) =
        initializeTimeSlots store) ∧
    (∀ (store : Store) (c k : String) (x : TimeSlot),
      findSlot store c k = some x →
      findSlot (initializeTimeSlots store) c k = some x) := by
  constructor
  · intro store
    have hpres : ∀ item ∈ initItems,
        (findSlot (initializeTimeSlots store)
          item.carer_id item.date_time_slot).isSome := by
      rw [initializeTimeSlots_eq_foldl store]
      exact initFold_mem_present initItems store
    rw [initializeTimeSlots_eq_foldl (initializeTimeSlots store)]
    exact initFold_of_all_present initItems _ hpres
  · intro store c k x h
    rw [initializeTimeSlots_eq_foldl store]
    exact findSlot_initFold initItems store c k x h

/-- Witness for C3: the Booked slot `(Doctor1, 20250728#0900)` with its
booking name survives a full re-initialization unchanged. -/
theorem initialize_idempotent_witness :
    findSlot (initializeTimeSlots [bookedSlotDoctor])
        "Doctor1" "20250728#0900" = some bookedSlotDoctor :=
  initialize_idempotent.2 [bookedSlotDoctor] "Doctor1" "20250728#0900"
    bookedSlotDoctor (by decide)

/-! ## C5: booking_person_name is present iff the slot is Booked -/

theorem mem_updateSlot (s : Store) (c k : String) (f : TimeSlot → TimeSlot)
    (x : TimeSlot) (hx : x ∈ updateSlot s c k f) :
    x ∈ s ∨ ∃ y ∈ s, x = f y := by
  induction s with
  | nil => simp [updateSlot] at hx
  | cons y ys ih =>
    rw [updateSlot_cons] at hx
    cases hmatch : (y.carer_id == c && y.date_time_slot == k) with
    | true =>
      rw [hmatch] at hx
      simp only [if_true] at hx
      rcases List.mem_cons.mp hx with rfl | h'
      · exact Or.inr ⟨y, List.mem_cons_self _ _, rfl⟩
      · exact Or.inl (List.mem_cons_of_mem _ h')
    | false =>
      rw [hmatch] at hx
      simp only [Bool.false_eq_true, if_false] at hx
      rcases List.mem_cons.mp hx with rfl | h'
      · exact Or.inl (List.mem_cons_self _ _)
      · rcases ih h' with h | ⟨z, hz, rfl⟩
        · exact Or.inl (List.mem_cons_of_mem _ h)
        · exact Or.inr ⟨z, List.mem_cons_of_mem _ hz, rfl⟩

theorem mem_initPut (fault : Option String) (s : Store) (item x : TimeSlot)
    (hx : x ∈ initPut fault s item) : x ∈ s ∨ x = item := by
  cases fault with
  | some e => exact Or.inl hx
  | none =>
    cases hfind : findSlot s item.carer_id item.date_time_slot with
    | some y =>
      have heq : initPut none s item = s := by unfold initPut; rw [hfind]
      rw [heq] at hx
      exact Or.inl hx
    | none =>
      have heq : initPut none s item = s ++ [item] := by
        unfold initPut; rw [hfind]
      rw [heq] at hx
      rcases List.mem_append.mp hx with h | h
      · exact Or.inl h
      · simp at h
        exact Or.inr h

theorem mem_initFold (faults : TimeSlot → Option String)
    (items : List TimeSlot) (s : Store) (x : TimeSlot)
    (hx : x ∈ items.foldl (fun st item => initPut (faults item) st item) s) :
    x ∈ s ∨ x ∈ items := by
  induction items generalizing s with
  | nil => exact Or.inl hx
  | cons it its ih =>
    rcases ih _ hx with h | h
    · rcases mem_initPut (faults it) s it x h with h' | rfl
      · exact Or.inl h'
      · exact Or.inr (List.mem_cons_self _ _)
    · exact Or.inr (List.mem_cons_of_mem _ h)

theorem initItems_fields : ∀ item ∈ initItems,
    item.availability = Availability.Free ∧
      item.booking_person_name = none := by
  intro item h
  simp only [initItems, List.mem_flatMap, List.mem_map] at h
  obtain ⟨c, _, d, _, t, _, rfl⟩ := h
  exact ⟨rfl, rfl⟩

theorem bookAppointment_fst (fault : Option String) (store : Store)
    (b : BookingRequest) :
    (bookAppointment fault store b).1 = store ∨
    (bookAppointment fault store b).1 =
      updateSlot store b.carer_id (b.date ++ "#" ++ b.time_slot)
        (fun s => { s with availability := .Booked,
                           booking_person_name := some b.person_name }) := by
  cases fault with
  | some e => exact Or.inl rfl
  | none =>
    cases hfind : findSlot store b.carer_id (b.date ++ "#" ++ b.time_slot) with
    | none => simp [bookAppointment, condUpdate, hfind]
    | some x =>
      cases hav : x.availability with
      | Free => simp [bookAppointment, condUpdate, hfind, hav]
      | Booked => simp [bookAppointment, condUpdate, hfind, hav]

theorem cancelAppointment_fst (fault : Option String) (store : Store)
    (c d t : String) :
    (cancelAppointment fault store c d t).1 = store ∨
    (cancelAppointment fault store c d t).1 =
      updateSlot store c (d ++ "#" ++ t)
        (fun s => { s with availability := .Free,
                           booking_person_name := none }) := by
  cases fault with
  | some e => exact Or.inl rfl
  | none =>
    cases hfind : findSlot store c (d ++ "#" ++ t) with
    | none => simp [cancelAppointment, condUpdate, hfind]
    | some x =>
      cases hav : x.availability with
      | Free => simp [cancelAppointment, condUpdate, hfind, hav]
      | Booked => simp [cancelAppointment, condUpdate, hfind, hav]

theorem applyOp_preserves_inv (s : Store) (op : Op)
    (h : ∀ y ∈ s, y.booking_person_name.isSome =
      (y.availability == Availability.Booked)) :
    ∀ x ∈ applyOp s op, x.booking_person_name.isSome =
      (x.availability == Availability.Booked) := by
  intro x hx
  cases op with
  | init faults =>
    rcases mem_initFold faults initItems s x hx with hmem | hmem
    · exact h x hmem
    · obtain ⟨hfree, hname⟩ := initItems_fields x hmem
      rw [hfree, hname]
      rfl
  | book fault b =>
    rcases bookAppointment_fst fault s b with heq | heq <;>
      simp only [applyOp, heq] at hx
    · exact h x hx
    · rcases mem_updateSlot _ _ _ _ x hx with hmem | ⟨y, _, rfl⟩
      · exact h x hmem
      · rfl
  | cancel fault c d t =>
    rcases cancelAppointment_fst fault s c d t with heq | heq <;>
      simp only [applyOp, heq] at hx
    · exact h x hx
    · rcases mem_updateSlot _ _ _ _ x hx with hmem | ⟨y, _, rfl⟩
      · exact h x hmem
      · rfl

/-- C5: in every table reachable by any sequence of initialize / book /
cancel operations (with or without store faults) from a table satisfying the
invariant, `booking_person_name` is present if and only if
`availability = Booked`; and every slot that initialize creates is Free with
no name.  Book sets Booked and the name in one conditional write, cancel
sets Free and removes the name in one conditional write, so each single
operation preserves the invariant. -/
theorem booking_name_iff_booked_invariant :
    (∀ item ∈ initItems,
      item.availability = Availability.Free ∧
        item.booking_person_name = none) ∧
    (∀ s0 : Store,
      (∀ y ∈ s0, y.booking_person_name.isSome =
        (y.availability == Availability.Booked)) →
      ∀ ops : List Op, ∀ x ∈ runOps s0 ops,
        x.booking_person_name.isSome =
          (x.availability == Availability.Booked)) := by
  refine ⟨initItems_fields, ?_⟩
  intro s0 h0 ops
  induction ops generalizing s0 with
  | nil => exact h0
  | cons op rest ih =>
    exact ih (applyOp s0 op) (applyOp_preserves_inv s0 op h0)

/-- Witness for C5: after booking the free slot `(Carer1, 20250725#0900)`
for Alice, the booked record carries a name exactly because it is Booked. -/
theorem booking_name_iff_booked_invariant_witness :
    ({ initItem "Carer1" "20250725" "0900" with
         availability := Availability.Booked,
         booking_person_name := some "Alice" } :
        TimeSlot).booking_person_name.isSome =
      (({ initItem "Carer1" "20250725" "0900" with
            availability := Availability.Booked,
            booking_person_name := some "Alice" } :
          TimeSlot).availability == Availability.Booked) :=
  booking_name_iff_booked_invariant.2 oneFreeSlotStore (by decide)
    [Op.book none ⟨"Carer1", "20250725", "0900", "Alice"⟩] _ (by decide)

/-! ## C4: which seeding failures Initialize suppresses -/

/-- C4 (the code at the failing input): `initializeTimeSlots` attaches
`.catch` with an empty handler to EVERY seeding put, so a throttling store
error on the put for `(Doctor1, 20250728#0900)` is swallowed exactly like an
already-exists failure: the run completes without surfacing any error (in
the model, `initializeTimeSlotsWith` has no error outcome at all — every
rejection is caught) and silently leaves that one slot missing, while a
fault-free run creates it.  This contradicts the claim (and the code's own
comment "Ignore if item already exists") that only the already-exists
failure is suppressed. -/
theorem initialize_swallows_store_errors :
    findSlot (initializeTimeSlotsWith throttleOneFault [])
        "Doctor1" "20250728#0900" = none ∧
    (initializeTimeSlotsWith throttleOneFault []).length = 125 ∧
    findSlot (initializeTimeSlots []) "Doctor1" "20250728#0900" =
      some (initItem "Doctor1" "20250728" "0900") ∧
    (initializeTimeSlots []).length = 126 := by
  refine ⟨by decide, by decide, by decide, by decide⟩

end HealthCarer
